import Mathlib

/-!
Verification development for the sew-schedule-visualizer repository.

The repository has two entry points:
  * `src/Locally Ran/gantt_app.py` — a desktop app whose core logic is
    `load_and_process_data` (CSV → records, sorted by sewer then start time)
    and `group_and_sort_sewers` (the dominant-category ranker);
  * `src/dynamic_gantt.py` — a Dash dashboard whose core logic is
    `parse_upload` (CSV → stored records or an error status) and
    `update_dynamic_graph` (filtering and category-axis computation).

Below, each of those functions is shallowly embedded as a Lean definition
over explicit list-based data: a CSV table is a header row plus positional
data rows; timestamps are minutes (proleptic Gregorian) as integers;
pandas group/sort operations become stable insertion sorts over the same
keys the source uses.
-/

/-- One unit of work, as produced by either loader.  Timestamps are modelled
as integer minutes on a proleptic Gregorian axis. -/
structure ScheduleRecord where
  sewer_name : String
  machine_name : String
  sew_type : String
  start_time : Int
  operation_minutes : Int
  end_time : Int
deriving DecidableEq, Repr

/-- A CSV file after `pd.read_csv`: a header naming the columns, and data
rows holding the cell strings positionally. -/
structure CSVTable where
  columns : List String
  rows : List (List String)
deriving DecidableEq, Repr

/-- Cell access `df[c]` for one row: look the column name up in the header
and take the cell at that position (missing cells read as `""`;
column presence is validated separately, as in the source). -/
def cellAt (cols : List String) (row : List String) (c : String) : String :=
  match cols.indexOf? c with
  | some i => row.getD i ""
  | none => ""

/-- Leap-year test of the Gregorian calendar (as used by `datetime`). -/
def isLeapYear (y : Nat) : Bool :=
  (y % 4 == 0 && y % 100 != 0) || y % 400 == 0

/-- Number of days in month `m` of year `y`. -/
def daysInMonth (y m : Nat) : Nat :=
  if m = 2 then (if isLeapYear y then 29 else 28)
  else if m = 4 ∨ m = 6 ∨ m = 9 ∨ m = 11 then 30
  else 31

/-- Days in the months of year `y` strictly before month `m`. -/
def daysBeforeMonth (y m : Nat) : Nat :=
  (List.range (m - 1)).foldl (fun acc i => acc + daysInMonth y (i + 1)) 0

/-- Minutes since 0001-01-01 00:00 of the timestamp `(y, m, d, h, mi)`
on the proleptic Gregorian calendar. -/
def toEpochMinutes (y m d h mi : Nat) : Int :=
  let days := 365 * (y - 1) + (y - 1) / 4 - (y - 1) / 100 + (y - 1) / 400
      + daysBeforeMonth y m + (d - 1)
  ((days * 1440 + h * 60 + mi : Nat) : Int)

/-- Characters of `cs` with leading and trailing whitespace removed. -/
def stripChars (cs : List Char) : List Char :=
  ((cs.dropWhile Char.isWhitespace).reverse.dropWhile Char.isWhitespace).reverse

/-- Model of Python's `str.strip()` / pandas `.str.strip()`: remove
surrounding whitespace. -/
def strip (s : String) : String :=
  ⟨stripChars s.data⟩

/-- Lexicographic strict comparison of character lists by code point —
the comparison Python applies to strings, and hence the one pandas sorting
uses on the string columns of this program. -/
def charListLTb : List Char → List Char → Bool
  | [], [] => false
  | [], _ :: _ => true
  | _ :: _, [] => false
  | a :: as, b :: bs =>
    if a.toNat < b.toNat then true
    else if b.toNat < a.toNat then false
    else charListLTb as bs

/-- Strict lexicographic order on strings by code point. -/
def strLT (a b : String) : Prop :=
  charListLTb a.data b.data = true

/-- Lexicographic order on strings by code point (the negation of the
reversed strict order). -/
def strLE (a b : String) : Prop :=
  charListLTb b.data a.data = false

instance : DecidableRel strLT := fun a b => by
  unfold strLT; infer_instance

instance : DecidableRel strLE := fun a b => by
  unfold strLE; infer_instance

theorem charListLTb_irrefl : ∀ l, charListLTb l l = false
  | [] => rfl
  | a :: as => by
    simp [charListLTb, charListLTb_irrefl as]

theorem charListLTb_asymm : ∀ {l m}, charListLTb l m = true → charListLTb m l = false
  | [], [], h => by simp [charListLTb] at h
  | [], _ :: _, _ => rfl
  | _ :: _, [], h => by simp [charListLTb] at h
  | a :: as, b :: bs, h => by
    by_cases h1 : a.toNat < b.toNat
    · simp [charListLTb, Nat.lt_asymm h1, h1]
    · by_cases h2 : b.toNat < a.toNat
      · simp [charListLTb, h1, h2] at h
      · simp [charListLTb, h1, h2] at h ⊢
        exact charListLTb_asymm h

theorem charListLTb_trans : ∀ {l m k},
    charListLTb l m = true → charListLTb m k = true → charListLTb l k = true
  | [], [], _, h1, _ => by simp [charListLTb] at h1
  | [], _ :: _, [], _, h2 => by simp [charListLTb] at h2
  | [], _ :: _, _ :: _, _, _ => rfl
  | _ :: _, [], _, h1, _ => by simp [charListLTb] at h1
  | _ :: _, _ :: _, [], _, h2 => by simp [charListLTb] at h2
  | a :: as, b :: bs, c :: cs, h1, h2 => by
    by_cases hab : a.toNat < b.toNat
    · by_cases hbc : b.toNat < c.toNat
      · simp [charListLTb, Nat.lt_trans hab hbc]
      · by_cases hcb : c.toNat < b.toNat
        · simp [charListLTb, hbc, hcb] at h2
        · have hbc2 : b.toNat = c.toNat := Nat.le_antisymm (Nat.le_of_not_lt hcb) (Nat.le_of_not_lt hbc)
          simp [charListLTb, hbc2 ▸ hab]
    · by_cases hba : b.toNat < a.toNat
      · simp [charListLTb, hab, hba] at h1
      · have hab2 : a.toNat = b.toNat := Nat.le_antisymm (Nat.le_of_not_lt hba) (Nat.le_of_not_lt hab)
        simp [charListLTb, hab, hba] at h1
        by_cases hbc : b.toNat < c.toNat
        · simp [charListLTb, hab2 ▸ hbc]
        · by_cases hcb : c.toNat < b.toNat
          · simp [charListLTb, hbc, hcb] at h2
          · simp [charListLTb, hbc, hcb] at h2
            simp [charListLTb, hab2 ▸ hbc, hab2 ▸ hcb, charListLTb_trans h1 h2]

theorem charListLTb_eq_of_both_false : ∀ {l m},
    charListLTb l m = false → charListLTb m l = false → l = m
  | [], [], _, _ => rfl
  | [], _ :: _, h1, _ => by simp [charListLTb] at h1
  | _ :: _, [], _, h2 => by simp [charListLTb] at h2
  | a :: as, b :: bs, h1, h2 => by
    by_cases hab : a.toNat < b.toNat
    · simp [charListLTb, hab] at h1
    · by_cases hba : b.toNat < a.toNat
      · simp [charListLTb, hba] at h2
      · have hv : a.toNat = b.toNat := Nat.le_antisymm (Nat.le_of_not_lt hba) (Nat.le_of_not_lt hab)
        have hc : a = b := Char.ext (UInt32.ext_iff.mpr hv)
        simp [charListLTb, hab, hba] at h1 h2
        exact hc ▸ congrArg (a :: ·) (charListLTb_eq_of_both_false h1 h2)

theorem String.data_inj : ∀ {a b : String}, a.data = b.data → a = b
  | ⟨_⟩, ⟨_⟩, rfl => rfl

theorem strLT_irrefl (a : String) : ¬ strLT a a := by
  simp [strLT, charListLTb_irrefl]

theorem strLT_asymm {a b : String} (h : strLT a b) : ¬ strLT b a := by
  simp [strLT] at h ⊢
  simp [charListLTb_asymm h]

theorem strLT_trans {a b c : String} (h1 : strLT a b) (h2 : strLT b c) : strLT a c :=
  charListLTb_trans h1 h2

theorem strLT_trichotomy (a b : String) : strLT a b ∨ a = b ∨ strLT b a := by
  by_cases h1 : charListLTb a.data b.data = true
  · exact Or.inl h1
  · by_cases h2 : charListLTb b.data a.data = true
    · exact Or.inr (Or.inr h2)
    · exact Or.inr (Or.inl (String.data_inj
        (charListLTb_eq_of_both_false (Bool.eq_false_iff.mpr (fun hx => h1 hx))
          (Bool.eq_false_iff.mpr (fun hx => h2 hx)))))

theorem strLE_total (a b : String) : strLE a b ∨ strLE b a := by
  by_cases h : charListLTb b.data a.data = true
  · exact Or.inr (charListLTb_asymm h)
  · exact Or.inl (Bool.eq_false_iff.mpr (fun hx => h hx))

theorem strLE_trans {a b c : String} (h1 : strLE a b) (h2 : strLE b c) : strLE a c := by
  unfold strLE at h1 h2 ⊢
  by_contra hx
  have hca : charListLTb c.data a.data = true := Bool.of_not_eq_false hx
  by_cases hbc : charListLTb b.data c.data = true
  · exact absurd (charListLTb_trans hbc hca) (by simp [h1])
  · have hcb : b.data = c.data :=
      charListLTb_eq_of_both_false (Bool.eq_false_iff.mpr (fun h => hbc h)) h2
    exact absurd (hcb ▸ hca) (by simp [h1])

theorem strLE_of_strLT {a b : String} (h : strLT a b) : strLE a b :=
  charListLTb_asymm h

theorem strLE_refl (a : String) : strLE a a := by
  simp [strLE, charListLTb_irrefl]

theorem strLE_iff (a b : String) : strLE a b ↔ strLT a b ∨ a = b := by
  constructor
  · intro h
    rcases strLT_trichotomy a b with h1 | h1 | h1
    · exact Or.inl h1
    · exact Or.inr h1
    · have h2 : charListLTb b.data a.data = false := h
      have h3 : charListLTb b.data a.data = true := h1
      rw [h2] at h3
      cases h3
  · intro h
    rcases h with h | rfl
    · exact strLE_of_strLT h
    · exact strLE_refl a

/-- Numeric value of a digit string. -/
def digitsVal (cs : List Char) : Nat :=
  cs.foldl (fun a c => a * 10 + (c.toNat - 48)) 0

/-- Split a character list into its leading digit run and the rest. -/
def splitDigits (cs : List Char) : List Char × List Char :=
  (cs.takeWhile Char.isDigit, cs.dropWhile Char.isDigit)

/-- Model of `pd.to_datetime(value, format="%Y-%m-%d %H:%M")` on one value:
a 4-digit year, 1–2 digit month/day/hour/minute separated by the literal
`-`, `-`, space, `:`, nothing left over, and all fields in calendar range
(year at least 1, valid day of month, hour below 24, minute below 60).
Returns the timestamp as epoch minutes, or `none` on a parse failure. -/
def parseStartTime (s : String) : Option Int :=
  let p1 := splitDigits s.data
  match p1.2 with
  | '-' :: r1 =>
    let p2 := splitDigits r1
    match p2.2 with
    | '-' :: r2 =>
      let p3 := splitDigits r2
      match p3.2 with
      | ' ' :: r3 =>
        let p4 := splitDigits r3
        match p4.2 with
        | ':' :: r4 =>
          let p5 := splitDigits r4
          if p5.2.isEmpty && p1.1.length == 4 &&
              decide (1 ≤ p2.1.length) && p2.1.length ≤ 2 &&
              decide (1 ≤ p3.1.length) && p3.1.length ≤ 2 &&
              decide (1 ≤ p4.1.length) && p4.1.length ≤ 2 &&
              decide (1 ≤ p5.1.length) && p5.1.length ≤ 2 then
            let y := digitsVal p1.1
            let m := digitsVal p2.1
            let d := digitsVal p3.1
            let h := digitsVal p4.1
            let mi := digitsVal p5.1
            if decide (1 ≤ y) && decide (1 ≤ m) && m ≤ 12 &&
                decide (1 ≤ d) && d ≤ daysInMonth y m && h ≤ 23 && mi ≤ 59 then
              some (toEpochMinutes y m d h mi)
            else none
          else none
        | _ => none
      | _ => none
    | _ => none
  | _ => none

/-- Model of reading an `Operation Time` cell as a number of minutes
(`pd.read_csv` column typing followed by `pd.to_timedelta(..., unit="m")`):
an optional minus sign followed by digits; anything else is not numeric and
makes `to_timedelta` raise. -/
def parseOpTime (s : String) : Option Int :=
  match s.data with
  | [] => none
  | '-' :: ds =>
    if ds.isEmpty then none
    else if ds.all Char.isDigit then some (-(digitsVal ds : Int)) else none
  | ds =>
    if ds.all Char.isDigit then some ((digitsVal ds : Int)) else none

/-- The required columns of `parse_upload` / the input contract, in the
order the source checks them. -/
def requiredColumns : List String :=
  ["Sewer Name", "Start Time", "Operation Time", "Sew Type"]

/-- Row-to-record conversion shared by the column-wise pipeline of
`parse_upload` (strip the sewer name, parse the start time, default the
machine name to `"Unknown"` when the column is absent, and compute
`End Time = Start Time + Operation Time` minutes). -/
def recordOfRow (t : CSVTable) (row : List String) : ScheduleRecord :=
  let st := (parseStartTime (cellAt t.columns row "Start Time")).getD 0
  let op := (parseOpTime (cellAt t.columns row "Operation Time")).getD 0
  { sewer_name := strip (cellAt t.columns row "Sewer Name")
    machine_name :=
      if t.columns.contains "Machine Name" then cellAt t.columns row "Machine Name"
      else "Unknown"
    sew_type := cellAt t.columns row "Sew Type"
    start_time := st
    operation_minutes := op
    end_time := st + op }

/-- The `contents` argument of the upload callback, after base64 decoding
and `pd.read_csv`: no file yet, an unreadable file, or a parsed table. -/
inductive Upload where
  | noFile
  | badFile
  | file (t : CSVTable)
deriving DecidableEq, Repr

/-- The status message the upload callback puts in `upload-status`. -/
inductive UploadStatus where
  | noFileYet
  | readError
  | missingColumn (c : String)
  | startTimeError (v : String)
  | success
deriving DecidableEq, Repr

/-- Model of `parse_upload` from `src/dynamic_gantt.py`.  The result is the
callback's output pair `(stored-data, upload-status)`; the outer `Option`
is `none` when the callback raises an uncaught exception (a non-numeric
`Operation Time` makes `pd.to_timedelta` raise outside any try block), in
which case Dash leaves both outputs unchanged. -/
def parse_upload (u : Upload) : Option (Option (List ScheduleRecord) × UploadStatus) :=
  match u with
  | .noFile => some (none, .noFileYet)
  | .badFile => some (none, .readError)
  | .file t =>
    match requiredColumns.find? (fun c => !(t.columns.contains c)) with
    | some c => some (none, .missingColumn c)
    | none =>
      match t.rows.find? (fun row => (parseStartTime (cellAt t.columns row "Start Time")).isNone) with
      | some row => some (none, .startTimeError (cellAt t.columns row "Start Time"))
      | none =>
        if t.rows.any (fun row => (parseOpTime (cellAt t.columns row "Operation Time")).isNone) then
          none
        else
          some (some (t.rows.map (recordOfRow t)), .success)

/-- Errors of `load_and_process_data` from `src/Locally Ran/gantt_app.py`,
in the order its lines can raise them: a `KeyError` for a column accessed
but absent, a datetime parse error, or a `to_timedelta` error. -/
inductive LoadError where
  | missingColumn (c : String)
  | timeParseError (v : String)
  | opTimeError
deriving DecidableEq, Repr

instance {e o : Type} [DecidableEq e] [DecidableEq o] : DecidableEq (Except e o) := fun a b =>
  match a, b with
  | .ok x, .ok y => decidable_of_iff (x = y) (by simp)
  | .error x, .error y => decidable_of_iff (x = y) (by simp)
  | .ok _, .error _ => isFalse (by simp)
  | .error _, .ok _ => isFalse (by simp)

/-- Record ordering used by the final `sort_values(["Sewer Name", "Start Time"])`
of `load_and_process_data`. -/
def recLE (a b : ScheduleRecord) : Prop :=
  strLT a.sewer_name b.sewer_name ∨ (a.sewer_name = b.sewer_name ∧ a.start_time ≤ b.start_time)

instance : DecidableRel recLE := fun a b => by
  unfold recLE; infer_instance

instance : IsTotal ScheduleRecord recLE where
  total a b := by
    rcases strLT_trichotomy a.sewer_name b.sewer_name with h | h | h
    · exact Or.inl (Or.inl h)
    · rcases le_total a.start_time b.start_time with h2 | h2
      · exact Or.inl (Or.inr ⟨h, h2⟩)
      · exact Or.inr (Or.inr ⟨h.symm, h2⟩)
    · exact Or.inr (Or.inl h)

instance : IsTrans ScheduleRecord recLE where
  trans a b c hab hbc := by
    rcases hab with h1 | ⟨h1, h1t⟩
    · rcases hbc with h2 | ⟨h2, _⟩
      · exact Or.inl (strLT_trans h1 h2)
      · exact Or.inl (h2 ▸ h1)
    · rcases hbc with h2 | ⟨h2, h2t⟩
      · exact Or.inl (h1 ▸ h2)
      · exact Or.inr ⟨h1.trans h2, h1t.trans h2t⟩

/-- Model of `load_and_process_data` from `src/Locally Ran/gantt_app.py`:
strip sewer names, parse start times with the exact `%Y-%m-%d %H:%M`
format, compute end times, then sort by sewer name and start time (pandas
`sort_values` on several keys is a stable lexicographic sort).  Column
accesses raise `KeyError` in source order: `Sewer Name`, `Start Time`,
then `Operation Time`. -/
def load_and_process_data (t : CSVTable) : Except LoadError (List ScheduleRecord) :=
  if ¬ t.columns.contains "Sewer Name" then .error (.missingColumn "Sewer Name")
  else if ¬ t.columns.contains "Start Time" then .error (.missingColumn "Start Time")
  else
    match t.rows.find? (fun row => (parseStartTime (cellAt t.columns row "Start Time")).isNone) with
    | some row => .error (.timeParseError (cellAt t.columns row "Start Time"))
    | none =>
      if ¬ t.columns.contains "Operation Time" then .error (.missingColumn "Operation Time")
      else if t.rows.any (fun row => (parseOpTime (cellAt t.columns row "Operation Time")).isNone) then
        .error .opTimeError
      else
        .ok (List.insertionSort recLE (t.rows.map (recordOfRow t)))

/-- Ordering on `(Sewer Name, Sew Type)` keys used by
`df.groupby(["Sewer Name", "Sew Type"])`, which sorts group keys
lexicographically. -/
def pairLE (p q : String × String) : Prop :=
  strLT p.1 q.1 ∨ (p.1 = q.1 ∧ strLE p.2 q.2)

instance : DecidableRel pairLE := fun p q => by
  unfold pairLE; infer_instance

instance : IsTotal (String × String) pairLE where
  total p q := by
    rcases strLT_trichotomy p.1 q.1 with h | h | h
    · exact Or.inl (Or.inl h)
    · rcases strLE_total p.2 q.2 with h2 | h2
      · exact Or.inl (Or.inr ⟨h, h2⟩)
      · exact Or.inr (Or.inr ⟨h.symm, h2⟩)
    · exact Or.inr (Or.inl h)

instance : IsTrans (String × String) pairLE where
  trans p q w hpq hqw := by
    rcases hpq with h1 | ⟨h1, h1t⟩
    · rcases hqw with h2 | ⟨h2, _⟩
      · exact Or.inl (strLT_trans h1 h2)
      · exact Or.inl (h2 ▸ h1)
    · rcases hqw with h2 | ⟨h2, h2t⟩
      · exact Or.inl (h1 ▸ h2)
      · exact Or.inr ⟨h1.trans h2, strLE_trans h1t h2t⟩

/-- Total operation time of sewer `s` in sew type `ty`:
the sum of `Operation Time` over the matching records. -/
def totalOp (rs : List ScheduleRecord) (s ty : String) : Int :=
  ((rs.filter (fun r => r.sewer_name = s ∧ r.sew_type = ty)).map
    (fun r => r.operation_minutes)).sum

/-- Model of
`df.groupby(["Sewer Name", "Sew Type"])["Operation Time"].sum().reset_index()`:
the distinct `(sewer, sew type)` keys in sorted order, each with its summed
operation time. -/
def grouped (rs : List ScheduleRecord) : List (String × String × Int) :=
  (List.insertionSort pairLE
      ((rs.map (fun r => (r.sewer_name, r.sew_type))).dedup)).map
    (fun p => (p.1, p.2, totalOp rs p.1 p.2))

/-- The rows of `grouped` belonging to one sewer, in grouped (sew-type
ascending) order. -/
def entriesFor (rs : List ScheduleRecord) (s : String) : List (String × String × Int) :=
  (grouped rs).filter (fun e => e.1 = s)

/-- Model of `Series.idxmax` applied within one sewer group of `grouped`:
the first row attaining the maximum summed operation time. -/
def pickDominant : List (String × String × Int) → String × String × Int
  | [] => ("", "", 0)
  | [e] => e
  | e :: e2 :: rest =>
    let b := pickDominant (e2 :: rest)
    if e.2.2 < b.2.2 then b else e

/-- The dominant row `(sewer, sew type, total)` the ranker computes for
sewer `s`. -/
def dominantTriple (rs : List ScheduleRecord) (s : String) : String × String × Int :=
  pickDominant (entriesFor rs s)

/-- The distinct sewer names in sorted order — the index order of
`grouped.groupby("Sewer Name")`. -/
def sewersSorted (rs : List ScheduleRecord) : List String :=
  List.insertionSort strLE ((rs.map (fun r => r.sewer_name)).dedup)

/-- The `dominant` dataframe of `group_and_sort_sewers`: one row per sewer,
in sewer-ascending order. -/
def dominantList (rs : List ScheduleRecord) : List (String × String × Int) :=
  (sewersSorted rs).map (fun s => dominantTriple rs s)

/-- Ordering used by
`dominant.sort_values(by=["Sew Type", "Dominant Time"], ascending=[True, False])`:
sew type ascending, then dominant time descending. -/
def domLE (a b : String × String × Int) : Prop :=
  strLT a.2.1 b.2.1 ∨ (a.2.1 = b.2.1 ∧ b.2.2 ≤ a.2.2)

instance : DecidableRel domLE := fun a b => by
  unfold domLE; infer_instance

instance : IsTotal (String × String × Int) domLE where
  total a b := by
    rcases strLT_trichotomy a.2.1 b.2.1 with h | h | h
    · exact Or.inl (Or.inl h)
    · rcases le_total a.2.2 b.2.2 with h2 | h2
      · exact Or.inr (Or.inr ⟨h.symm, h2⟩)
      · exact Or.inl (Or.inr ⟨h, h2⟩)
    · exact Or.inr (Or.inl h)

instance : IsTrans (String × String × Int) domLE where
  trans a b c hab hbc := by
    rcases hab with h1 | ⟨h1, h1t⟩
    · rcases hbc with h2 | ⟨h2, _⟩
      · exact Or.inl (strLT_trans h1 h2)
      · exact Or.inl (h2 ▸ h1)
    · rcases hbc with h2 | ⟨h2, h2t⟩
      · exact Or.inl (h1 ▸ h2)
      · exact Or.inr ⟨h1.trans h2, h2t.trans h1t⟩

/-- Model of `group_and_sort_sewers` from `src/Locally Ran/gantt_app.py`:
group by `(sewer, sew type)` and sum operation times, pick each sewer's
dominant row by `idxmax`, sort the dominant rows by sew type ascending then
dominant time descending, and return the sewer-name column. -/
def group_and_sort_sewers (rs : List ScheduleRecord) : List String :=
  (List.insertionSort domLE (dominantList rs)).map (fun e => e.1)

/-- The three categorical fields the dashboard dropdowns can select for the
`view_by` and `color_by` axes. -/
inductive ViewField where
  | machineName
  | sewType
  | sewerName
deriving DecidableEq, Repr

/-- Value of the selected field in one record (`df[view_by]` for one row). -/
def fieldValue (v : ViewField) (r : ScheduleRecord) : String :=
  match v with
  | .machineName => r.machine_name
  | .sewType => r.sew_type
  | .sewerName => r.sewer_name

/-- Truthiness of one filter dropdown value in
`if machine_filter and machine_filter != "ALL"`: the filter is applied only
when the dropdown holds a non-empty string other than `"ALL"`. -/
def filterActive (f : Option String) : Prop :=
  match f with
  | some v => v ≠ "" ∧ v ≠ "ALL"
  | none => False

instance : DecidablePred filterActive := fun f => by
  unfold filterActive
  cases f <;> infer_instance

/-- The three filter steps of `update_dynamic_graph`, applied in source
order with logical AND. -/
def applyFilters (mf sf wf : Option String) (rs : List ScheduleRecord) : List ScheduleRecord :=
  let r1 := if filterActive mf then rs.filter (fun r => r.machine_name = mf.getD "") else rs
  let r2 := if filterActive sf then r1.filter (fun r => r.sew_type = sf.getD "") else r1
  if filterActive wf then r2.filter (fun r => r.sewer_name = wf.getD "") else r2

/-- Model of `sorted(df[col].unique())`: the distinct values, sorted
ascending. -/
def sortedDistinct (xs : List String) : List String :=
  List.insertionSort strLE xs.dedup

/-- Category-axis computation of `update_dynamic_graph`: when no filter is
applied at all, the categories of the full dataset; otherwise the
categories of the filtered dataset. -/
def categoriesOf (mf sf wf : Option String) (v : ViewField)
    (full filtered : List ScheduleRecord) : List String :=
  if mf = some "ALL" ∧ sf = some "ALL" ∧ wf = some "ALL" then
    sortedDistinct (full.map (fieldValue v))
  else
    sortedDistinct (filtered.map (fieldValue v))

/-- The figure the `update_dynamic_graph` callback returns: the empty dict
when no data is stored, the "no data matches" layout when the filtered
subset is empty, or a timeline chart built from the filtered records with
its category axis and pixel height. -/
inductive GraphResult where
  | noData
  | emptyMessage
  | chart (records : List ScheduleRecord) (viewBy colorBy : ViewField)
      (categories : List String) (height : Nat)
deriving DecidableEq, Repr

/-- Model of `update_dynamic_graph` from `src/dynamic_gantt.py`: apply the
three filters to the stored records, short-circuit when nothing matches,
and otherwise build the chart description with the category list and the
dynamic height `max(600, 40 * len(categories))`. -/
def update_dynamic_graph (data : Option (List ScheduleRecord)) (viewBy colorBy : ViewField)
    (mf sf wf : Option String) : GraphResult :=
  match data with
  | none => .noData
  | some full =>
    let df := applyFilters mf sf wf full
    if df.isEmpty then .emptyMessage
    else
      let categories := categoriesOf mf sf wf viewBy full df
      .chart df viewBy colorBy categories (max 600 (40 * categories.length))

/-- A one-row valid CSV table used as a concrete input in witnesses. -/
def tableA : CSVTable :=
  { columns := ["Sewer Name", "Start Time", "Operation Time", "Sew Type"],
    rows := [["Amy", "2024-01-01 08:00", "30", "X"]] }

/-- The record loaded from the single row of `tableA`. -/
def recA : ScheduleRecord :=
  recordOfRow tableA ["Amy", "2024-01-01 08:00", "30", "X"]

/-- A valid CSV table whose rows are not in `(Sewer Name, Start Time)`
order: row 0 belongs to `Zed`, row 1 to `Amy`. -/
def tableZA : CSVTable :=
  { columns := ["Sewer Name", "Start Time", "Operation Time", "Sew Type"],
    rows := [["Zed", "2024-01-01 08:00", "30", "X"],
             ["Amy", "2024-01-01 09:00", "45", "Y"]] }

/-- A CSV table lacking the required `Sewer Name` column. -/
def tableMissing : CSVTable :=
  { columns := ["Start Time", "Operation Time", "Sew Type"],
    rows := [["2024-01-01 08:00", "30", "X"]] }

/-- A CSV table lacking the required `Sew Type` column, all other cells
valid. -/
def tableNoSewType : CSVTable :=
  { columns := ["Sewer Name", "Start Time", "Operation Time"],
    rows := [["Amy", "2024-01-01 08:00", "30"]] }

/-- The record the desktop loader derives from the single row of
`tableNoSewType` (its `sew_type` reads as `""` since the column is
absent and the loader never touches it). -/
def recNoSewType : ScheduleRecord :=
  recordOfRow tableNoSewType ["Amy", "2024-01-01 08:00", "30"]

/-- A CSV table whose second row has an unparseable `Start Time`. -/
def tableBadTime : CSVTable :=
  { columns := ["Sewer Name", "Start Time", "Operation Time", "Sew Type"],
    rows := [["Amy", "2024-01-01 08:00", "30", "X"],
             ["Bob", "nope", "30", "X"]] }

/-- A CSV table whose single row has a `Sewer Name` that is empty after
trimming. -/
def tableBlankName : CSVTable :=
  { columns := ["Sewer Name", "Start Time", "Operation Time", "Sew Type"],
    rows := [["   ", "2024-01-01 08:00", "30", "X"]] }

/-- The record loaded from the single row of `tableBlankName`. -/
def recBlank : ScheduleRecord :=
  recordOfRow tableBlankName ["   ", "2024-01-01 08:00", "30", "X"]

/-- Helper to build an in-memory record directly. -/
def mkRec (s ty : String) (st op : Int) : ScheduleRecord :=
  { sewer_name := s, machine_name := "M1", sew_type := ty,
    start_time := st, operation_minutes := op, end_time := st + op }

/-- Record sequence in which sewer `P` has a tie (`Z` and `A` both total 10
minutes) and `Z` appears first in input order. -/
def rsTie : List ScheduleRecord :=
  [mkRec "P" "Z" 0 10, mkRec "P" "A" 100 10, mkRec "Q" "M" 0 10]

/-- A successful `parse_upload` result is always the row-derived record
list in input order with a `success` status. -/
theorem parse_upload_ok {t : CSVTable} {rs : List ScheduleRecord} {st : UploadStatus}
    (h : parse_upload (.file t) = some (some rs, st)) :
    rs = t.rows.map (recordOfRow t) ∧ st = .success := by
  simp only [parse_upload] at h
  split at h
  · simp at h
  · split at h
    · simp at h
    · split at h
      · simp at h
      · simp at h
        exact ⟨h.1.symm, h.2.symm⟩

/-- A successful `load_and_process_data` result is always the stable
`(Sewer Name, Start Time)` sort of the row-derived record list. -/
theorem load_ok {t : CSVTable} {rs : List ScheduleRecord}
    (h : load_and_process_data t = .ok rs) :
    rs = List.insertionSort recLE (t.rows.map (recordOfRow t)) := by
  unfold load_and_process_data at h
  split at h
  · simp at h
  · split at h
    · simp at h
    · split at h
      · simp at h
      · split at h
        · simp at h
        · split at h
          · simp at h
          · simp at h
            exact h.symm

/-- Every row-derived record has `end_time = start_time + operation_minutes`
by construction. -/
theorem recordOfRow_end_time (t : CSVTable) (row : List String) :
    (recordOfRow t row).end_time =
      (recordOfRow t row).start_time + (recordOfRow t row).operation_minutes := rfl

/-- C4: every record produced by either loader (the dashboard's
`parse_upload` and the desktop `load_and_process_data`) satisfies
`end_time = start_time + operation_minutes`, minutes being the unit of
`Operation Time`. -/
theorem c4_end_time_eq (t u : CSVTable) (rs us : List ScheduleRecord) (r q : ScheduleRecord)
    (h1 : parse_upload (.file t) = some (some rs, .success)) (h2 : r ∈ rs)
    (h3 : load_and_process_data u = .ok us) (h4 : q ∈ us) :
    r.end_time = r.start_time + r.operation_minutes ∧
    q.end_time = q.start_time + q.operation_minutes := by
  obtain ⟨hrs, -⟩ := parse_upload_ok h1
  have hus := load_ok h3
  subst hrs hus
  constructor
  · obtain ⟨row, -, rfl⟩ := List.mem_map.mp h2
    exact recordOfRow_end_time t row
  · rw [List.mem_insertionSort] at h4
    obtain ⟨row, -, rfl⟩ := List.mem_map.mp h4
    exact recordOfRow_end_time u row

/-- Witness for C4 at a concrete one-row table loaded by both loaders. -/
theorem c4_end_time_eq_witness :
    parse_upload (.file tableA) = some (some [recA], .success) ∧
    load_and_process_data tableA = .ok [recA] ∧
    (recA.end_time = recA.start_time + recA.operation_minutes ∧
     recA.end_time = recA.start_time + recA.operation_minutes) :=
  ⟨by decide, by decide,
   c4_end_time_eq tableA tableA [recA] [recA] recA recA (by decide) (by decide)
     (by decide) (by decide)⟩

/-- C5: with all three filter dropdowns set to `"ALL"`, the filter step of
`update_dynamic_graph` returns the stored dataset unchanged, and its
category list is the sorted distinct `view_by` values of that full
dataset. -/
theorem c5_all_filters_identity (full : List ScheduleRecord) (v : ViewField) :
    applyFilters (some "ALL") (some "ALL") (some "ALL") full = full ∧
    categoriesOf (some "ALL") (some "ALL") (some "ALL") v full
        (applyFilters (some "ALL") (some "ALL") (some "ALL") full) =
      sortedDistinct (full.map (fieldValue v)) := by
  have hact : ¬ filterActive (some "ALL") := by
    intro h
    exact h.2 rfl
  constructor
  · unfold applyFilters
    simp [hact]
  · unfold categoriesOf
    simp

/-- C6: whenever the filtered subset is non-empty, `update_dynamic_graph`
renders a chart whose category list is the sorted distinct `view_by`
values of the unfiltered dataset when every filter is `"ALL"`, and of the
filtered subset otherwise. -/
theorem c6_category_source (full : List ScheduleRecord) (v c : ViewField)
    (mf sf wf : Option String) (h : applyFilters mf sf wf full ≠ []) :
    update_dynamic_graph (some full) v c mf sf wf =
      .chart (applyFilters mf sf wf full) v c
        (if mf = some "ALL" ∧ sf = some "ALL" ∧ wf = some "ALL" then
          sortedDistinct (full.map (fieldValue v))
        else
          sortedDistinct ((applyFilters mf sf wf full).map (fieldValue v)))
        (max 600 (40 * (categoriesOf mf sf wf v full (applyFilters mf sf wf full)).length)) := by
  have hE : (applyFilters mf sf wf full).isEmpty = false := by
    cases hE2 : (applyFilters mf sf wf full).isEmpty
    · rfl
    · exact absurd (List.isEmpty_iff.mp hE2) h
  unfold update_dynamic_graph categoriesOf
  simp only [hE]
  rfl

/-- Witness for C6 at a concrete dataset, with all filters `"ALL"` so the
category list comes from the full dataset. -/
theorem c6_category_source_witness :
    applyFilters (some "ALL") (some "ALL") (some "ALL") [recA] ≠ [] ∧
    update_dynamic_graph (some [recA]) .sewerName .sewType
        (some "ALL") (some "ALL") (some "ALL") =
      .chart (applyFilters (some "ALL") (some "ALL") (some "ALL") [recA])
        .sewerName .sewType
        (if (some "ALL" : Option String) = some "ALL" ∧
            (some "ALL" : Option String) = some "ALL" ∧
            (some "ALL" : Option String) = some "ALL" then
          sortedDistinct ([recA].map (fieldValue .sewerName))
        else
          sortedDistinct (((applyFilters (some "ALL") (some "ALL") (some "ALL") [recA])).map
            (fieldValue .sewerName)))
        (max 600 (40 * (categoriesOf (some "ALL") (some "ALL") (some "ALL") .sewerName [recA]
          (applyFilters (some "ALL") (some "ALL") (some "ALL") [recA])).length)) :=
  ⟨by decide,
   c6_category_source [recA] .sewerName .sewType (some "ALL") (some "ALL") (some "ALL")
     (by decide)⟩

/-- Counterexample for C3: `load_and_process_data` sorts the loaded records
by `(Sewer Name, Start Time)`, so on a table whose first row belongs to
`Zed` and whose second row belongs to `Amy`, output record 0 is derived
from input row 1, not row 0. -/
theorem c3_counterexample :
    (load_and_process_data tableZA).map (fun l => l.map (fun r => r.sewer_name)) =
      .ok ["Amy", "Zed"] ∧
    tableZA.rows.map (fun row => strip (cellAt tableZA.columns row "Sewer Name")) =
      ["Zed", "Amy"] ∧
    (["Amy", "Zed"] : List String) ≠ ["Zed", "Amy"] := by
  decide

/-- C3 (amended): the dashboard loader `parse_upload` preserves input row
order — its record `i` is derived from row `i` — while the desktop loader
`load_and_process_data` instead returns the row-derived records stably
sorted by `(Sewer Name, Start Time)`. -/
theorem c3_order_preservation (t u : CSVTable) (rs us : List ScheduleRecord)
    (h1 : parse_upload (.file t) = some (some rs, .success))
    (h2 : load_and_process_data u = .ok us) :
    rs.length = t.rows.length ∧
    (∀ i (hi : i < rs.length) (hi2 : i < t.rows.length),
      rs.get ⟨i, hi⟩ = recordOfRow t (t.rows.get ⟨i, hi2⟩)) ∧
    us = List.insertionSort recLE (u.rows.map (recordOfRow u)) := by
  obtain ⟨hrs, -⟩ := parse_upload_ok h1
  subst hrs
  refine ⟨List.length_map _ _, ?_, load_ok h2⟩
  intro i hi hi2
  simp [List.get_map]

/-- Witness for C3 (amended) at a concrete two-row table. -/
theorem c3_order_preservation_witness :
    parse_upload (.file tableZA) =
      some (some (tableZA.rows.map (recordOfRow tableZA)), .success) ∧
    load_and_process_data tableZA =
      .ok (List.insertionSort recLE (tableZA.rows.map (recordOfRow tableZA))) ∧
    ((tableZA.rows.map (recordOfRow tableZA)).length = tableZA.rows.length ∧
     (∀ i (hi : i < (tableZA.rows.map (recordOfRow tableZA)).length)
        (hi2 : i < tableZA.rows.length),
        (tableZA.rows.map (recordOfRow tableZA)).get ⟨i, hi⟩ =
          recordOfRow tableZA (tableZA.rows.get ⟨i, hi2⟩)) ∧
     List.insertionSort recLE (tableZA.rows.map (recordOfRow tableZA)) =
       List.insertionSort recLE (tableZA.rows.map (recordOfRow tableZA))) :=
  ⟨by decide, by decide,
   c3_order_preservation tableZA tableZA (tableZA.rows.map (recordOfRow tableZA))
     (List.insertionSort recLE (tableZA.rows.map (recordOfRow tableZA)))
     (by decide) (by decide)⟩

/-- Counterexample for C7: `Sew Type` is a required column, yet the
desktop loader `load_and_process_data` never accesses it — a table lacking
`Sew Type` loads successfully and produces a non-empty record sequence
instead of failing with a validation error. -/
theorem c7_counterexample :
    ("Sew Type" ∈ requiredColumns) ∧ ("Sew Type" ∉ tableNoSewType.columns) ∧
    load_and_process_data tableNoSewType = .ok [recNoSewType] ∧
    ([recNoSewType] : List ScheduleRecord) ≠ [] := by
  decide

/-- C7 (amended): when a required column is absent, the web loader
`parse_upload` fails with a status naming a missing required column and
stores no record sequence, for all four required columns; the desktop
loader `load_and_process_data` fails naming the missing column only for
the three columns it accesses — `Sewer Name`, `Start Time`, and (after
start-time parsing) `Operation Time` — and loads successfully when only
`Sew Type` is missing. -/
theorem c7_missing_column_loaders (t : CSVTable) (c : String)
    (hc : c ∈ requiredColumns) (hm : c ∉ t.columns) :
    (∃ c2, parse_upload (.file t) = some (none, .missingColumn c2) ∧
      c2 ∈ requiredColumns ∧ c2 ∉ t.columns) ∧
    ("Sewer Name" ∉ t.columns → load_and_process_data t = .error (.missingColumn "Sewer Name")) ∧
    ("Sewer Name" ∈ t.columns → "Start Time" ∉ t.columns →
      load_and_process_data t = .error (.missingColumn "Start Time")) ∧
    ("Sewer Name" ∈ t.columns → "Start Time" ∈ t.columns → "Operation Time" ∉ t.columns →
      (∀ row ∈ t.rows, (parseStartTime (cellAt t.columns row "Start Time")).isSome) →
      load_and_process_data t = .error (.missingColumn "Operation Time")) ∧
    ("Sewer Name" ∈ t.columns → "Start Time" ∈ t.columns → "Operation Time" ∈ t.columns →
      (∀ row ∈ t.rows, (parseStartTime (cellAt t.columns row "Start Time")).isSome) →
      (∀ row ∈ t.rows, (parseOpTime (cellAt t.columns row "Operation Time")).isSome) →
      load_and_process_data t = .ok (List.insertionSort recLE (t.rows.map (recordOfRow t)))) := by
  refine ⟨?_, ?_, ?_, ?_, ?_⟩
  · cases hfind : requiredColumns.find? (fun c => !(t.columns.contains c)) with
    | none =>
      rw [List.find?_eq_none] at hfind
      have := hfind c hc
      simp at this
      exact absurd this hm
    | some c2 =>
      refine ⟨c2, ?_, List.mem_of_find?_eq_some hfind, ?_⟩
      · simp only [parse_upload]
        rw [hfind]
      · have := List.find?_some hfind
        simpa using this
  · intro hSN
    unfold load_and_process_data
    rw [if_pos (by simpa using hSN)]
  · intro hSN hST
    unfold load_and_process_data
    rw [if_neg (by simpa using hSN), if_pos (by simpa using hST)]
  · intro hSN hST hOT htime
    have hfind : t.rows.find?
        (fun row => (parseStartTime (cellAt t.columns row "Start Time")).isNone) = none := by
      rw [List.find?_eq_none]
      intro row hmem
      simp [Option.isNone_iff_eq_none]
      exact Option.isSome_iff_ne_none.mp (htime row hmem)
    unfold load_and_process_data
    rw [if_neg (by simpa using hSN), if_neg (by simpa using hST), hfind]
    simp [hOT]
  · intro hSN hST hOT htime hop
    have hfind : t.rows.find?
        (fun row => (parseStartTime (cellAt t.columns row "Start Time")).isNone) = none := by
      rw [List.find?_eq_none]
      intro row hmem
      simp [Option.isNone_iff_eq_none]
      exact Option.isSome_iff_ne_none.mp (htime row hmem)
    have hnex : ¬ ∃ x ∈ t.rows, parseOpTime (cellAt t.columns x "Operation Time") = none := by
      rintro ⟨x, hx, hval⟩
      exact (Option.isSome_iff_ne_none.mp (hop x hx)) hval
    unfold load_and_process_data
    rw [if_neg (by simpa using hSN), if_neg (by simpa using hST), hfind]
    simp [hOT, hnex]

/-- Witness for C7 (amended) at the table lacking only `Sew Type`: the web
loader rejects it naming the missing column, while the desktop loader
loads it successfully. -/
theorem c7_missing_column_loaders_witness :
    ("Sew Type" ∈ requiredColumns ∧ "Sew Type" ∉ tableNoSewType.columns) ∧
    ((∃ c2, parse_upload (.file tableNoSewType) = some (none, .missingColumn c2) ∧
       c2 ∈ requiredColumns ∧ c2 ∉ tableNoSewType.columns) ∧
     ("Sewer Name" ∉ tableNoSewType.columns →
       load_and_process_data tableNoSewType = .error (.missingColumn "Sewer Name")) ∧
     ("Sewer Name" ∈ tableNoSewType.columns → "Start Time" ∉ tableNoSewType.columns →
       load_and_process_data tableNoSewType = .error (.missingColumn "Start Time")) ∧
     ("Sewer Name" ∈ tableNoSewType.columns → "Start Time" ∈ tableNoSewType.columns →
       "Operation Time" ∉ tableNoSewType.columns →
       (∀ row ∈ tableNoSewType.rows,
         (parseStartTime (cellAt tableNoSewType.columns row "Start Time")).isSome) →
       load_and_process_data tableNoSewType = .error (.missingColumn "Operation Time")) ∧
     ("Sewer Name" ∈ tableNoSewType.columns → "Start Time" ∈ tableNoSewType.columns →
       "Operation Time" ∈ tableNoSewType.columns →
       (∀ row ∈ tableNoSewType.rows,
         (parseStartTime (cellAt tableNoSewType.columns row "Start Time")).isSome) →
       (∀ row ∈ tableNoSewType.rows,
         (parseOpTime (cellAt tableNoSewType.columns row "Operation Time")).isSome) →
       load_and_process_data tableNoSewType =
         .ok (List.insertionSort recLE (tableNoSewType.rows.map (recordOfRow tableNoSewType))))) :=
  ⟨⟨by decide, by decide⟩,
   c7_missing_column_loaders tableNoSewType "Sew Type" (by decide) (by decide)⟩

/-- C8: when the accessed columns are present but some row's `Start Time`
does not parse with the exact `%Y-%m-%d %H:%M` format, the whole load
fails in both loaders, with no records produced: `parse_upload` stores
`None` and reports a start-time parse error carrying an offending input
value, and `load_and_process_data` aborts with a time parse error carrying
an offending input value. -/
theorem c8_bad_start_time (t u : CSVTable)
    (hcols : ∀ c ∈ requiredColumns, c ∈ t.columns)
    (hbad : ∃ row ∈ t.rows, parseStartTime (cellAt t.columns row "Start Time") = none)
    (hu1 : "Sewer Name" ∈ u.columns) (hu2 : "Start Time" ∈ u.columns)
    (hubad : ∃ row ∈ u.rows, parseStartTime (cellAt u.columns row "Start Time") = none) :
    (∃ v, parse_upload (.file t) = some (none, .startTimeError v) ∧
      (∃ row ∈ t.rows, cellAt t.columns row "Start Time" = v) ∧
      parseStartTime v = none) ∧
    (∃ v, load_and_process_data u = .error (.timeParseError v) ∧
      (∃ row ∈ u.rows, cellAt u.columns row "Start Time" = v) ∧
      parseStartTime v = none) := by
  constructor
  · have hfind : requiredColumns.find? (fun c => !(t.columns.contains c)) = none := by
      rw [List.find?_eq_none]
      intro c hc
      simp [hcols c hc]
    cases hrow : t.rows.find? (fun row => (parseStartTime (cellAt t.columns row "Start Time")).isNone) with
    | none =>
      rw [List.find?_eq_none] at hrow
      obtain ⟨row, hmem, hval⟩ := hbad
      have := hrow row hmem
      simp [hval] at this
    | some row =>
      refine ⟨cellAt t.columns row "Start Time", ?_, ⟨row, List.mem_of_find?_eq_some hrow, rfl⟩, ?_⟩
      · simp only [parse_upload]
        rw [hfind, hrow]
      · have := List.find?_some hrow
        simpa [Option.isNone_iff_eq_none] using this
  · cases hrow : u.rows.find? (fun row => (parseStartTime (cellAt u.columns row "Start Time")).isNone) with
    | none =>
      rw [List.find?_eq_none] at hrow
      obtain ⟨row, hmem, hval⟩ := hubad
      have := hrow row hmem
      simp [hval] at this
    | some row =>
      refine ⟨cellAt u.columns row "Start Time", ?_, ⟨row, List.mem_of_find?_eq_some hrow, rfl⟩, ?_⟩
      · unfold load_and_process_data
        rw [if_neg (by simpa using hu1), if_neg (by simpa using hu2), hrow]
      · have := List.find?_some hrow
        simpa [Option.isNone_iff_eq_none] using this

/-- Witness for C8: a table whose second row's `Start Time` is `"nope"`,
rejected whole by both loaders. -/
theorem c8_bad_start_time_witness :
    (∀ c ∈ requiredColumns, c ∈ tableBadTime.columns) ∧
    (∃ row ∈ tableBadTime.rows,
      parseStartTime (cellAt tableBadTime.columns row "Start Time") = none) ∧
    ((∃ v, parse_upload (.file tableBadTime) = some (none, .startTimeError v) ∧
       (∃ row ∈ tableBadTime.rows, cellAt tableBadTime.columns row "Start Time" = v) ∧
       parseStartTime v = none) ∧
     (∃ v, load_and_process_data tableBadTime = .error (.timeParseError v) ∧
       (∃ row ∈ tableBadTime.rows, cellAt tableBadTime.columns row "Start Time" = v) ∧
       parseStartTime v = none)) :=
  ⟨by decide, by decide,
   c8_bad_start_time tableBadTime tableBadTime (by decide) (by decide)
     (by decide) (by decide) (by decide)⟩

/-- Counterexample for C9: a row whose `Sewer Name` is whitespace only is
not rejected by either loader — both load it successfully and the
resulting record's `sewer_name` is the empty string. -/
theorem c9_counterexample :
    parse_upload (.file tableBlankName) = some (some [recBlank], .success) ∧
    load_and_process_data tableBlankName = .ok [recBlank] ∧
    recBlank.sewer_name = "" := by
  decide

/-- C9 (amended): neither loader performs emptiness validation on
`Sewer Name`.  Any table whose required columns are present and whose
`Start Time` and `Operation Time` values all parse loads successfully in
`parse_upload` — and likewise in `load_and_process_data` given its three
accessed columns — regardless of sewer names, and every record's
`sewer_name` is exactly the trimmed raw cell, empty or not. -/
theorem c9_no_name_validation (t u : CSVTable)
    (hcols : ∀ c ∈ requiredColumns, c ∈ t.columns)
    (htime : ∀ row ∈ t.rows, (parseStartTime (cellAt t.columns row "Start Time")).isSome)
    (hop : ∀ row ∈ t.rows, (parseOpTime (cellAt t.columns row "Operation Time")).isSome)
    (hu1 : "Sewer Name" ∈ u.columns) (hu2 : "Start Time" ∈ u.columns)
    (hu3 : "Operation Time" ∈ u.columns)
    (hutime : ∀ row ∈ u.rows, (parseStartTime (cellAt u.columns row "Start Time")).isSome)
    (huop : ∀ row ∈ u.rows, (parseOpTime (cellAt u.columns row "Operation Time")).isSome) :
    parse_upload (.file t) = some (some (t.rows.map (recordOfRow t)), .success) ∧
    (∀ row ∈ t.rows, (recordOfRow t row).sewer_name = strip (cellAt t.columns row "Sewer Name")) ∧
    load_and_process_data u = .ok (List.insertionSort recLE (u.rows.map (recordOfRow u))) ∧
    (∀ row ∈ u.rows, (recordOfRow u row).sewer_name = strip (cellAt u.columns row "Sewer Name")) := by
  have hfind : requiredColumns.find? (fun c => !(t.columns.contains c)) = none := by
    rw [List.find?_eq_none]
    intro c hc
    simp [hcols c hc]
  have hrow : t.rows.find? (fun row => (parseStartTime (cellAt t.columns row "Start Time")).isNone) = none := by
    rw [List.find?_eq_none]
    intro row hmem
    simp [Option.isNone_iff_eq_none]
    exact Option.isSome_iff_ne_none.mp (htime row hmem)
  have hany : (t.rows.any (fun row => (parseOpTime (cellAt t.columns row "Operation Time")).isNone)) = false := by
    rw [List.any_eq_false]
    intro row hmem
    simp [Option.isNone_iff_eq_none]
    exact Option.isSome_iff_ne_none.mp (hop row hmem)
  have hurow : u.rows.find? (fun row => (parseStartTime (cellAt u.columns row "Start Time")).isNone) = none := by
    rw [List.find?_eq_none]
    intro row hmem
    simp [Option.isNone_iff_eq_none]
    exact Option.isSome_iff_ne_none.mp (hutime row hmem)
  have hunex : ¬ ∃ x ∈ u.rows, parseOpTime (cellAt u.columns x "Operation Time") = none := by
    rintro ⟨x, hx, hval⟩
    exact (Option.isSome_iff_ne_none.mp (huop x hx)) hval
  refine ⟨?_, fun row _ => rfl, ?_, fun row _ => rfl⟩
  · simp only [parse_upload]
    rw [hfind, hrow]
    simp [hany]
  · unfold load_and_process_data
    rw [if_neg (by simpa using hu1), if_neg (by simpa using hu2), hurow]
    simp [hu3, hunex]

/-- Witness for C9 (amended): the blank-name table satisfies the
hypotheses and loads successfully in both loaders. -/
theorem c9_no_name_validation_witness :
    (∀ c ∈ requiredColumns, c ∈ tableBlankName.columns) ∧
    (parse_upload (.file tableBlankName) =
       some (some (tableBlankName.rows.map (recordOfRow tableBlankName)), .success) ∧
     (∀ row ∈ tableBlankName.rows,
       (recordOfRow tableBlankName row).sewer_name =
         strip (cellAt tableBlankName.columns row "Sewer Name")) ∧
     load_and_process_data tableBlankName =
       .ok (List.insertionSort recLE (tableBlankName.rows.map (recordOfRow tableBlankName))) ∧
     (∀ row ∈ tableBlankName.rows,
       (recordOfRow tableBlankName row).sewer_name =
         strip (cellAt tableBlankName.columns row "Sewer Name"))) :=
  ⟨by decide,
   c9_no_name_validation tableBlankName tableBlankName (by decide) (by decide) (by decide)
     (by decide) (by decide) (by decide) (by decide) (by decide)⟩

/-- C10: whenever the upload callback completes with an unreadable-CSV,
missing-column, or start-time error status, the `stored-data` output it
returns is `None`, replacing any previously stored dataset. -/
theorem c10_failure_clears_store (u : Upload) (stored : Option (List ScheduleRecord))
    (st : UploadStatus)
    (h : parse_upload u = some (stored, st))
    (hfail : st = .readError ∨ (∃ c, st = .missingColumn c) ∨ (∃ v, st = .startTimeError v)) :
    stored = none := by
  cases u with
  | noFile => simp [parse_upload] at h; exact h.1.symm
  | badFile => simp [parse_upload] at h; exact h.1.symm
  | file t =>
    simp only [parse_upload] at h
    split at h
    · simp at h
      exact h.1.symm
    · split at h
      · simp at h
        exact h.1.symm
      · split at h
        · simp at h
        · simp at h
          rcases hfail with hf | ⟨c, hf⟩ | ⟨v, hf⟩ <;>
            rw [← h.2] at hf <;> cases hf

/-- Witness for C10 at the unreadable-CSV input. -/
theorem c10_failure_clears_store_witness :
    parse_upload Upload.badFile = some (none, .readError) ∧
    (none : Option (List ScheduleRecord)) = none :=
  ⟨by decide,
   c10_failure_clears_store .badFile none .readError (by decide) (Or.inl rfl)⟩

theorem pickDominant_mem : ∀ (l : List (String × String × Int)), l ≠ [] → pickDominant l ∈ l
  | [], h => absurd rfl h
  | [_], _ => by simp [pickDominant]
  | e :: e2 :: rest, _ => by
    simp only [pickDominant]
    by_cases hc : e.2.2 < (pickDominant (e2 :: rest)).2.2
    · simp only [if_pos hc]
      exact List.mem_cons_of_mem e (pickDominant_mem (e2 :: rest) (by simp))
    · simp only [if_neg hc]
      exact List.mem_cons_self e _

theorem pickDominant_max : ∀ (l : List (String × String × Int)), ∀ e ∈ l,
    e.2.2 ≤ (pickDominant l).2.2
  | [], e, he => absurd he (List.not_mem_nil e)
  | [a], e, he => by
    simp at he
    subst he
    simp [pickDominant]
  | a :: a2 :: rest, e, he => by
    simp only [pickDominant]
    by_cases hc : a.2.2 < (pickDominant (a2 :: rest)).2.2
    · simp only [if_pos hc]
      rcases List.mem_cons.mp he with rfl | hmem
      · exact le_of_lt hc
      · exact pickDominant_max (a2 :: rest) e hmem
    · simp only [if_neg hc]
      rcases List.mem_cons.mp he with rfl | hmem
      · exact le_refl _
      · exact le_trans (pickDominant_max (a2 :: rest) e hmem) (not_lt.mp hc)

theorem pickDominant_first : ∀ (l : List (String × String × Int)),
    l.Pairwise (fun a b => strLE a.2.1 b.2.1) → ∀ e ∈ l,
    e.2.2 = (pickDominant l).2.2 → strLE (pickDominant l).2.1 e.2.1
  | [], _, e, he, _ => absurd he (List.not_mem_nil e)
  | [a], _, e, he, _ => by
    simp at he
    subst he
    simp only [pickDominant]
    exact strLE_refl _
  | a :: a2 :: rest, hp, e, he, heq => by
    have hp2 : (a2 :: rest).Pairwise (fun a b => strLE a.2.1 b.2.1) := hp.of_cons
    have hhead : ∀ x ∈ a2 :: rest, strLE a.2.1 x.2.1 := (List.pairwise_cons.mp hp).1
    simp only [pickDominant] at heq ⊢
    by_cases hc : a.2.2 < (pickDominant (a2 :: rest)).2.2
    · simp only [if_pos hc] at heq ⊢
      rcases List.mem_cons.mp he with rfl | hmem
      · exact absurd heq (ne_of_lt hc)
      · exact pickDominant_first (a2 :: rest) hp2 e hmem heq
    · simp only [if_neg hc] at heq ⊢
      rcases List.mem_cons.mp he with rfl | hmem
      · exact strLE_refl _
      · exact hhead e hmem

theorem entriesFor_sorted (rs : List ScheduleRecord) (s : String) :
    (entriesFor rs s).Pairwise (fun a b => strLE a.2.1 b.2.1) := by
  unfold entriesFor grouped
  have hs : (List.insertionSort pairLE ((rs.map (fun r => (r.sewer_name, r.sew_type))).dedup)).Pairwise pairLE :=
    List.sorted_insertionSort pairLE _
  have hmap : ((List.insertionSort pairLE ((rs.map (fun r => (r.sewer_name, r.sew_type))).dedup)).map
      (fun p => (p.1, p.2, totalOp rs p.1 p.2))).Pairwise
      (fun a b => strLT a.1 b.1 ∨ (a.1 = b.1 ∧ strLE a.2.1 b.2.1)) := by
    rw [List.pairwise_map]
    exact hs.imp (fun hpq => hpq)
  refine (hmap.filter _).imp_of_mem ?_
  intro a b ha hb hab
  have ha2 : a.1 = s := by simpa using List.of_mem_filter ha
  have hb2 : b.1 = s := by simpa using List.of_mem_filter hb
  rcases hab with h | ⟨-, h⟩
  · rw [ha2, hb2] at h
    exact absurd h (strLT_irrefl s)
  · exact h

theorem entriesFor_fst (rs : List ScheduleRecord) (s : String) :
    ∀ e ∈ entriesFor rs s, e.1 = s := by
  intro e he
  unfold entriesFor at he
  simpa using List.of_mem_filter he

theorem entriesFor_ne_nil (rs : List ScheduleRecord) (s : String)
    (h : s ∈ rs.map (fun r => r.sewer_name)) : entriesFor rs s ≠ [] := by
  obtain ⟨r, hr, hrs⟩ := List.mem_map.mp h
  have hsort : (r.sewer_name, r.sew_type) ∈
      List.insertionSort pairLE ((rs.map (fun x => (x.sewer_name, x.sew_type))).dedup) := by
    rw [List.mem_insertionSort, List.mem_dedup]
    exact List.mem_map_of_mem _ hr
  have hmem : (r.sewer_name, r.sew_type, totalOp rs r.sewer_name r.sew_type) ∈ grouped rs := by
    unfold grouped
    exact List.mem_map_of_mem _ hsort
  apply List.ne_nil_of_mem (a := (r.sewer_name, r.sew_type, totalOp rs r.sewer_name r.sew_type))
  unfold entriesFor
  exact List.mem_filter.mpr ⟨hmem, by simp [hrs]⟩

theorem dominantTriple_mem_entries (rs : List ScheduleRecord) (s : String)
    (h : s ∈ rs.map (fun r => r.sewer_name)) : dominantTriple rs s ∈ entriesFor rs s :=
  pickDominant_mem _ (entriesFor_ne_nil rs s h)

theorem dominantTriple_fst (rs : List ScheduleRecord) (s : String)
    (h : s ∈ rs.map (fun r => r.sewer_name)) : (dominantTriple rs s).1 = s :=
  entriesFor_fst rs s _ (dominantTriple_mem_entries rs s h)

theorem sewersSorted_mem (rs : List ScheduleRecord) (s : String) :
    s ∈ sewersSorted rs ↔ s ∈ rs.map (fun r => r.sewer_name) := by
  unfold sewersSorted
  rw [List.mem_insertionSort, List.mem_dedup]

theorem dominantList_self (rs : List ScheduleRecord) : ∀ x ∈ dominantList rs,
    dominantTriple rs x.1 = x ∧ x.1 ∈ rs.map (fun r => r.sewer_name) := by
  intro x hx
  unfold dominantList at hx
  obtain ⟨s, hs, rfl⟩ := List.mem_map.mp hx
  have hsm := (sewersSorted_mem rs s).mp hs
  have hf := dominantTriple_fst rs s hsm
  rw [hf]
  exact ⟨rfl, hsm⟩

/-- First occurrence order of the values of a list (keeps the first time a
value is seen, drops later repeats). -/
def firstOccurrences (xs : List String) : List String :=
  xs.foldl (fun acc x => if acc.contains x then acc else acc ++ [x]) []

/-- Following the words of the spec (and not the source): select the
`(category, total)` pair with the maximum total, ties broken by the
category first seen in input (row) order.  Used only to compare the spec's
claimed tie-break with the source's behaviour. -/
def specFirstSeenDominant (rs : List ScheduleRecord) (s : String) : String :=
  let cats := firstOccurrences ((rs.filter (fun r => r.sewer_name = s)).map (fun r => r.sew_type))
  match cats.find? (fun c => cats.all (fun c2 => decide (totalOp rs s c2 ≤ totalOp rs s c))) with
  | some c => c
  | none => ""

/-- Counterexample for C2: sewer `P` has categories `Z` (first in input
order) and `A` tied at 10 total minutes.  The ranker's dominant category
for `P` is `A` — the lexicographically smallest tied category, produced by
`idxmax` over the lexically sorted groupby rows — not the first-seen `Z`
the claim requires; consequently `P` (dominant `A`) is ranked before `Q`
(dominant `M`). -/
theorem c2_counterexample :
    (dominantTriple rsTie "P").2.1 = "A" ∧
    specFirstSeenDominant rsTie "P" = "Z" ∧
    ("A" : String) ≠ "Z" ∧
    group_and_sort_sewers rsTie = ["P", "Q"] := by
  decide

/-- C2 (amended): when an entity has two or more categories tied for the
maximum total operation time, the Ranker selects the lexicographically
smallest tied category (the first row of the lexically sorted group), not
the category first appearing in input order: the selected dominant row is
a real `(entity, category, total)` group row, its total is maximal for the
entity, and its category is lexically at most every tied category. -/
theorem c2_lex_tiebreak (rs : List ScheduleRecord) (s : String)
    (h : s ∈ rs.map (fun r => r.sewer_name)) :
    dominantTriple rs s ∈ entriesFor rs s ∧
    (∀ e ∈ entriesFor rs s, e.2.2 ≤ (dominantTriple rs s).2.2) ∧
    (∀ e ∈ entriesFor rs s, e.2.2 = (dominantTriple rs s).2.2 →
      strLE (dominantTriple rs s).2.1 e.2.1) :=
  ⟨dominantTriple_mem_entries rs s h,
   fun e he => pickDominant_max _ e he,
   fun e he heq => pickDominant_first _ (entriesFor_sorted rs s) e he heq⟩

/-- Witness for C2 (amended) at the tied concrete input. -/
theorem c2_lex_tiebreak_witness :
    ("P" ∈ rsTie.map (fun r => r.sewer_name)) ∧
    (dominantTriple rsTie "P" ∈ entriesFor rsTie "P" ∧
     (∀ e ∈ entriesFor rsTie "P", e.2.2 ≤ (dominantTriple rsTie "P").2.2) ∧
     (∀ e ∈ entriesFor rsTie "P", e.2.2 = (dominantTriple rsTie "P").2.2 →
       strLE (dominantTriple rsTie "P").2.1 e.2.1)) :=
  ⟨by decide, c2_lex_tiebreak rsTie "P" (by decide)⟩

/-- C1: for a non-empty record sequence, the ranker's output is a
permutation of the distinct sewer names (no duplicates, no omissions),
sorted by each sewer's dominant category ascending then by its total
minutes in that category descending; in particular, for sewers with
different dominant categories, `a` precedes `b` exactly when `a`'s
dominant category is lexically smaller. -/
theorem c1_ranker_order (rs : List ScheduleRecord) (h : rs ≠ []) :
    (group_and_sort_sewers rs).Perm ((rs.map (fun r => r.sewer_name)).dedup) ∧
    (group_and_sort_sewers rs).Pairwise
      (fun a b => domLE (dominantTriple rs a) (dominantTriple rs b)) ∧
    ∀ a ∈ group_and_sort_sewers rs, ∀ b ∈ group_and_sort_sewers rs,
      (dominantTriple rs a).2.1 ≠ (dominantTriple rs b).2.1 →
      ((group_and_sort_sewers rs).indexOf a < (group_and_sort_sewers rs).indexOf b ↔
        strLT (dominantTriple rs a).2.1 (dominantTriple rs b).2.1) := by
  have hperm : (group_and_sort_sewers rs).Perm ((rs.map (fun r => r.sewer_name)).dedup) := by
    unfold group_and_sort_sewers
    have h1 := (List.perm_insertionSort domLE (dominantList rs)).map (fun e => e.1)
    have h2 : (dominantList rs).map (fun e => e.1) = sewersSorted rs := by
      unfold dominantList
      rw [List.map_map]
      calc (sewersSorted rs).map (fun s => (dominantTriple rs s).1)
          = (sewersSorted rs).map id :=
            List.map_congr_left (fun s hs =>
              dominantTriple_fst rs s ((sewersSorted_mem rs s).mp hs))
        _ = sewersSorted rs := List.map_id _
    rw [h2] at h1
    exact h1.trans (List.perm_insertionSort strLE _)
  have hpair : (group_and_sort_sewers rs).Pairwise
      (fun a b => domLE (dominantTriple rs a) (dominantTriple rs b)) := by
    unfold group_and_sort_sewers
    rw [List.pairwise_map]
    have hs : (List.insertionSort domLE (dominantList rs)).Pairwise domLE :=
      List.sorted_insertionSort domLE _
    refine hs.imp_of_mem ?_
    intro x y hx hy hxy
    rw [List.mem_insertionSort] at hx hy
    rw [(dominantList_self rs x hx).1, (dominantList_self rs y hy).1]
    exact hxy
  refine ⟨hperm, hpair, ?_⟩
  intro a ha b hb hne
  constructor
  · intro hij
    have hia := List.indexOf_lt_length.mpr ha
    have hib := List.indexOf_lt_length.mpr hb
    have hP := (List.pairwise_iff_getElem.mp hpair) _ _ hia hib hij
    rw [List.getElem_indexOf hia, List.getElem_indexOf hib] at hP
    rcases hP with hlt | ⟨heq, -⟩
    · exact hlt
    · exact absurd heq hne
  · intro hcat
    rcases Nat.lt_trichotomy ((group_and_sort_sewers rs).indexOf a)
      ((group_and_sort_sewers rs).indexOf b) with hij | hij | hij
    · exact hij
    · exfalso
      have hab : a = b := (List.indexOf_inj ha hb).mp hij
      rw [hab] at hcat
      exact strLT_irrefl _ hcat
    · exfalso
      have hia := List.indexOf_lt_length.mpr ha
      have hib := List.indexOf_lt_length.mpr hb
      have hP := (List.pairwise_iff_getElem.mp hpair) _ _ hib hia hij
      rw [List.getElem_indexOf hia, List.getElem_indexOf hib] at hP
      rcases hP with hlt | ⟨heq, -⟩
      · exact strLT_asymm hcat hlt
      · exact hne heq.symm

/-- Witness for C1 at the concrete three-record input. -/
theorem c1_ranker_order_witness :
    rsTie ≠ [] ∧
    ((group_and_sort_sewers rsTie).Perm ((rsTie.map (fun r => r.sewer_name)).dedup) ∧
     (group_and_sort_sewers rsTie).Pairwise
       (fun a b => domLE (dominantTriple rsTie a) (dominantTriple rsTie b)) ∧
     ∀ a ∈ group_and_sort_sewers rsTie, ∀ b ∈ group_and_sort_sewers rsTie,
       (dominantTriple rsTie a).2.1 ≠ (dominantTriple rsTie b).2.1 →
       ((group_and_sort_sewers rsTie).indexOf a < (group_and_sort_sewers rsTie).indexOf b ↔
         strLT (dominantTriple rsTie a).2.1 (dominantTriple rsTie b).2.1)) :=
  ⟨by decide, c1_ranker_order rsTie (by decide)⟩
